import Mathlib

/-!
Verification of the neo4j_manager package (connection façade, health
monitor, backup/restore helper) against its specification.  Python code is
shallowly embedded: external effects (driver verification, query execution,
the filesystem, the wall clock) are passed in as explicit parameters, and
stateful methods become functions on an explicit state value.
-/

namespace Neo4jManager

/-- Model of a neo4j driver handle: an identifier for the object returned by
GraphDatabase.driver, plus whether verify_connectivity has succeeded on it. -/
structure Driver where
  id : Nat
  verified : Bool
deriving DecidableEq

/-- Model of the Neo4jConnection class (connection.py): endpoint URI,
credential pair, and the optional live driver handle stored in the
field named with a leading underscore in the source. -/
structure Neo4jConnection where
  uri : String
  username : String
  password : String
  driverField : Option Driver
deriving DecidableEq

/-- What verify_connectivity does on the freshly created driver. -/
inductive VerifyOutcome where
  | ok
  | serviceUnavailable (msg : String)
  | authError (msg : String)
deriving DecidableEq

/-- The exceptions connect re-raises. -/
inductive ConnectError where
  | serviceUnavailable (msg : String)
  | authError (msg : String)
deriving DecidableEq

/-- Neo4jConnection.connect: creates a fresh driver, assigns it to the
handle field, then calls verify_connectivity.  The assignment happens
before verification; on ServiceUnavailable or AuthError the exception is
logged and re-raised, and the assignment is not rolled back.  fresh is the
id of the driver object GraphDatabase.driver returns; outcome is what
verify_connectivity does on it.  Returns the post-state together with
either the returned driver or the re-raised error. -/
def Neo4jConnection.connect (c : Neo4jConnection) (fresh : Nat)
    (outcome : VerifyOutcome) : Neo4jConnection × Except ConnectError Driver :=
  let d : Driver := { id := fresh, verified := false }
  match outcome with
  | .ok =>
      let d' : Driver := { d with verified := true }
      ({ c with driverField := some d' }, .ok d')
  | .serviceUnavailable m =>
      ({ c with driverField := some d }, .error (.serviceUnavailable m))
  | .authError m =>
      ({ c with driverField := some d }, .error (.authError m))

/-- Neo4jConnection.close: if a handle is present, close it and set the
field to None; otherwise do nothing. -/
def Neo4jConnection.close (c : Neo4jConnection) : Neo4jConnection :=
  match c.driverField with
  | some _ => { c with driverField := none }
  | none => c

/-- The invariant stated by the spec for the handle field: it is either
absent or was verified reachable at the time of last use. -/
def handleAbsentOrVerified (c : Neo4jConnection) : Bool :=
  match c.driverField with
  | none => true
  | some d => d.verified

/-- A freshly constructed connection with the default arguments. -/
def sampleConn : Neo4jConnection :=
  { uri := "bolt://localhost:7687", username := "neo4j",
    password := "yourpassword", driverField := none }

/-! ## Health monitor (health_check.py) -/

/-- Exceptions that an underlying driver or query call can raise. -/
inductive PyErr where
  | serviceUnavailable (msg : String)
  | authError (msg : String)
  | otherError (msg : String)
deriving DecidableEq

/-- str(e): the message carried by the exception. -/
def PyErr.message : PyErr → String
  | .serviceUnavailable m => m
  | .authError m => m
  | .otherError m => m

/-- HealthChecker.check_connectivity: runs verify_connectivity on the
connection's driver (the driver accessor may lazily connect first) inside a
try block whose only except clause catches ServiceUnavailable and returns
False; success returns True; any other exception propagates.  attempt is
the combined outcome of the driver access and the verification call. -/
def check_connectivity (attempt : Except PyErr Unit) : Except PyErr Bool :=
  match attempt with
  | .ok _ => .ok true
  | .error (.serviceUnavailable _) => .ok false
  | .error e => .error e

/-- HealthChecker.check_apoc_available: issues the APOC introspection query;
rows holds the count column of each returned row.  Returns count > 0 for a
nonempty result, False for an empty result, and False for every raised
exception (the except clause catches Exception). -/
def check_apoc_available (rows : Except PyErr (List Int)) : Bool :=
  match rows with
  | .error _ => false
  | .ok [] => false
  | .ok (cnt :: _) => decide (0 < cnt)

/-- HealthChecker.get_version: issues the dbms.components query; rows holds
the version column of each returned row.  Returns the first row's version,
or the sentinel "unknown" for an empty result; a raised exception
propagates. -/
def get_version (rows : Except PyErr (List String)) : Except PyErr String :=
  match rows with
  | .error e => .error e
  | .ok [] => .ok "unknown"
  | .ok (v :: _) => .ok v

/-- The stats record assembled by HealthChecker.get_database_stats. -/
structure DbStats where
  node_count : Int
  relationship_count : Int
  labels : List String
deriving DecidableEq

/-- HealthChecker.get_database_stats: composes the node count, the
relationship count and the label enumeration; any raised exception
propagates.  labelsRows holds the labels column of each returned row. -/
def get_database_stats (nodeCount relCount : Except PyErr Int)
    (labelsRows : Except PyErr (List (List String))) : Except PyErr DbStats :=
  match nodeCount with
  | .error e => .error e
  | .ok n =>
    match relCount with
    | .error e => .error e
    | .ok r =>
      match labelsRows with
      | .error e => .error e
      | .ok rows =>
        .ok { node_count := n, relationship_count := r,
              labels := match rows with | [] => [] | ls :: _ => ls }

/-- The health dictionary built by full_health_check.  stats = none models
the empty dictionary it is initialised with; error = none models the
absence of the error key. -/
structure HealthReport where
  connected : Bool
  apoc_available : Bool
  version : String
  stats : Option DbStats
  error : Option String
deriving DecidableEq

/-- The behavior of the underlying connection during one
full_health_check call: the outcome of each query or verification the
sequence may perform. -/
structure HealthEnv where
  connectivity : Except PyErr Unit
  apocRows : Except PyErr (List Int)
  versionRows : Except PyErr (List String)
  nodeCount : Except PyErr Int
  relCount : Except PyErr Int
  labelsRows : Except PyErr (List (List String))

/-- HealthChecker.full_health_check: initialises the report with
connected=False, apoc_available=False, version="unknown", empty stats;
runs connectivity, then (only if connected) the APOC check, the version
query and the stats queries, in that order, inside a try block catching
Exception; a caught exception stores str(e) under the error key and the
report built so far is returned. -/
def full_health_check (env : HealthEnv) : HealthReport :=
  let health0 : HealthReport :=
    { connected := false, apoc_available := false, version := "unknown",
      stats := none, error := none }
  match check_connectivity env.connectivity with
  | .error e => { health0 with error := some e.message }
  | .ok conn =>
    let h1 := { health0 with connected := conn }
    if conn then
      let h2 := { h1 with apoc_available := check_apoc_available env.apocRows }
      match get_version env.versionRows with
      | .error e => { h2 with error := some e.message }
      | .ok v =>
        let h3 := { h2 with version := v }
        match get_database_stats env.nodeCount env.relCount env.labelsRows with
        | .error e => { h3 with error := some e.message }
        | .ok s => { h3 with stats := some s }
    else h1

/-- The polling loop of HealthChecker.wait_for_ready.  elapsed models the
wall-clock time since loop start, advanced by interval at each sleep
(checks are modelled as instantaneous, matching the spec's reading of the
loop); checks and sleeps count the check_connectivity invocations and the
sleeps performed so far; check gives the result of the n-th connectivity
check.  fuel bounds the recursion: none means the fuel ran out before the
loop exited. -/
def waitAux (check : Nat → Bool) (timeout : Int) (interval : Nat) :
    Nat → Nat → Nat → Nat → Option (Bool × Nat × Nat)
  | 0, _, _, _ => none
  | fuel + 1, elapsed, checks, sleeps =>
    if (elapsed : Int) < timeout then
      if check checks then some (true, checks + 1, sleeps)
      else waitAux check timeout interval fuel (elapsed + interval)
        (checks + 1) (sleeps + 1)
    else some (false, checks, sleeps)

/-- HealthChecker.wait_for_ready: runs the polling loop from elapsed time
zero.  The fuel timeout.toNat + 1 is enough for every positive interval
(each sleep advances elapsed by at least one second while the loop runs
only while elapsed < timeout); the returned triple is the result together
with the number of connectivity checks and of sleeps performed. -/
def wait_for_ready (check : Nat → Bool) (timeout : Int) (interval : Nat) :
    Option (Bool × Nat × Nat) :=
  waitAux check timeout interval (timeout.toNat + 1) 0 0 0

/-! ## Backup/restore helper (backup.py).  Filenames, paths and query text
are modelled as lists of characters. -/

/-- The extension constant ".graphml". -/
def graphmlExt : List Char := ".graphml".toList

/-- Python str.replace(pat, "") for a fixed pattern: scan left to right,
dropping every non-overlapping occurrence of pat.  fuel bounds the scan;
one unit is spent per character consumed, so the list's length is enough. -/
def pyRemoveAux (pat : List Char) : Nat → List Char → List Char
  | 0, l => l
  | _ + 1, [] => []
  | fuel + 1, c :: rest =>
    if pat ≠ [] ∧ pat.isPrefixOf (c :: rest) then
      pyRemoveAux pat fuel (rest.drop (pat.length - 1))
    else
      c :: pyRemoveAux pat fuel rest

/-- Python str.replace(pat, "") on a whole string. -/
def pyRemove (pat l : List Char) : List Char := pyRemoveAux pat l.length l

/-- filename.replace(".graphml", "") from export_to_graphml. -/
def stripGraphml (filename : List Char) : List Char := pyRemove graphmlExt filename

/-- The filename embedded in the APOC export query and in the returned
path: the stripped base with ".graphml" appended. -/
def exportEmbeddedName (filename : List Char) : List Char :=
  stripGraphml filename ++ graphmlExt

/-- The query text built by export_to_graphml (whitespace flattened). -/
def exportQuery (filename : List Char) (include_types : Bool) : List Char :=
  "CALL apoc.export.graphml.all('".toList ++ exportEmbeddedName filename ++
  "', \x7b useTypes: ".toList ++
  (if include_types then "true".toList else "false".toList) ++
  ", readLabels: true, storeNodeIds: false \x7d) YIELD file, nodes, relationships, time RETURN file, nodes, relationships, time".toList

/-- The path export_to_graphml returns: str(self.backup_dir / name). -/
def exportOutputPath (backupDir filename : List Char) : List Char :=
  backupDir ++ [ '/' ] ++ exportEmbeddedName filename

/-- os.path.basename for POSIX paths: the component after the last slash. -/
def basename (p : List Char) : List Char :=
  p.foldl (fun acc c => if c = '/' then [] else acc ++ [c]) []

/-- A row returned by the APOC import call. -/
structure ImportRow where
  nodes : Int
  relationships : Int
  time : Int
deriving DecidableEq

/-- The normalized stats record import_from_graphml returns. -/
structure ImportStats where
  nodes : Int
  relationships : Int
  time_ms : Int
deriving DecidableEq

/-- A database interaction issued through the connection façade. -/
inductive DbOp where
  | clearDatabase
  | runQuery (query : List Char)
deriving DecidableEq

/-- The exceptions import_from_graphml can raise. -/
inductive ImportError where
  | fileNotFound (msg : List Char)
  | queryFailed (msg : List Char)
deriving DecidableEq

/-- The query text built by import_from_graphml for a given basename
(whitespace flattened). -/
def importQuery (filename : List Char) : List Char :=
  "CALL apoc.import.graphml('file:///".toList ++ filename ++
  "', \x7b readLabels: true, storeNodeIds: false, defaultRelationshipType: 'RELATED', batchSize: 1000, useTypes: false \x7d) YIELD nodes, relationships, time RETURN nodes, relationships, time".toList

/-- BackupManager.import_from_graphml: raises FileNotFoundError if
os.path.exists(filepath) is false; otherwise optionally clears the
database, builds the import query from the basename of filepath, and runs
it, normalizing the first row into a stats record (all-zero stats when the
query yields no rows; a query failure is logged and re-raised).  fs models
os.path.exists; exec models execute_query on the issued query.  Returns
the result together with the trace of database operations issued. -/
def import_from_graphml (fs : List Char → Bool)
    (exec : List Char → Except (List Char) (List ImportRow))
    (filepath : List Char) (clear_database : Bool) :
    Except ImportError ImportStats × List DbOp :=
  if fs filepath = false then
    (.error (.fileNotFound ("Backup file not found: ".toList ++ filepath)), [])
  else
    let ops0 : List DbOp := if clear_database then [.clearDatabase] else []
    let q := importQuery (basename filepath)
    let ops := ops0 ++ [.runQuery q]
    match exec q with
    | .error e => (.error (.queryFailed e), ops)
    | .ok [] => (.ok { nodes := 0, relationships := 0, time_ms := 0 }, ops)
    | .ok (r :: _) =>
      (.ok { nodes := r.nodes, relationships := r.relationships,
             time_ms := r.time }, ops)

/-! ## Theorems: connection façade -/

/-- C1 (counterexample): a connect call that fails with ServiceUnavailable
leaves the handle field holding the freshly created, unverified driver, so
the spec's invariant (handle absent or verified) is violated right after a
failing connect. -/
theorem connect_failure_counterexample :
    (sampleConn.connect 7 (.serviceUnavailable "down")).snd =
      .error (.serviceUnavailable "down") ∧
    (sampleConn.connect 7 (.serviceUnavailable "down")).fst.driverField =
      some { id := 7, verified := false } ∧
    handleAbsentOrVerified (sampleConn.connect 7 (.serviceUnavailable "down")).fst
      = false :=
  ⟨rfl, rfl, rfl⟩

/-- C1 (amended): connect assigns the fresh handle before verifying it, so
after a successful connect the handle field holds the verified handle (the
spec's invariant holds), while after a failing connect (ServiceUnavailable
or AuthError) the handle field holds the fresh, unverified handle — the
assignment is not rolled back. -/
theorem connect_post_state (c : Neo4jConnection) (fresh : Nat)
    (outcome : VerifyOutcome) :
    (outcome = .ok →
      (c.connect fresh outcome).fst.driverField = some { id := fresh, verified := true } ∧
      (c.connect fresh outcome).snd = .ok { id := fresh, verified := true } ∧
      handleAbsentOrVerified (c.connect fresh outcome).fst = true) ∧
    (outcome ≠ .ok →
      (∃ e, (c.connect fresh outcome).snd = .error e) ∧
      (c.connect fresh outcome).fst.driverField = some { id := fresh, verified := false } ∧
      handleAbsentOrVerified (c.connect fresh outcome).fst = false) := by
  cases outcome <;>
    simp [Neo4jConnection.connect, handleAbsentOrVerified]

/-- Witness for C1: the amended statement at a concrete failing outcome. -/
theorem connect_post_state_witness :
    (∃ e, (sampleConn.connect 7 (VerifyOutcome.authError "bad")).snd = .error e) ∧
    (sampleConn.connect 7 (VerifyOutcome.authError "bad")).fst.driverField =
      some { id := 7, verified := false } ∧
    handleAbsentOrVerified
      (sampleConn.connect 7 (VerifyOutcome.authError "bad")).fst = false :=
  (connect_post_state sampleConn 7 (VerifyOutcome.authError "bad")).2 (by decide)

/-- C8: close is idempotent and total — after one close the handle is
absent, a second close changes nothing and still leaves it absent, and a
close with no handle present is a no-op, never an error (the model is a
total function, so no call raises). -/
theorem close_idempotent_total (c : Neo4jConnection) :
    c.close.driverField = none ∧
    c.close.close = c.close ∧
    c.close.close.driverField = none ∧
    (c.driverField = none → c.close = c) := by
  rcases c with ⟨u, n, p, d⟩
  cases d <;> simp [Neo4jConnection.close]

/-- Witness for C8: closing a connection that has no handle is a no-op. -/
theorem close_idempotent_total_witness : sampleConn.close = sampleConn :=
  (close_idempotent_total sampleConn).2.2.2 rfl

/-! ## Theorems: health monitor -/

/-- C5: check_connectivity returns true when verification succeeds, false
exactly when the failure is ServiceUnavailable, and re-raises every other
error kind (authentication or query errors) unchanged. -/
theorem check_connectivity_spec (attempt : Except PyErr Unit) :
    (attempt = .ok () → check_connectivity attempt = .ok true) ∧
    (∀ m, attempt = .error (.serviceUnavailable m) →
      check_connectivity attempt = .ok false) ∧
    (∀ m, attempt = .error (.authError m) →
      check_connectivity attempt = .error (.authError m)) ∧
    (∀ m, attempt = .error (.otherError m) →
      check_connectivity attempt = .error (.otherError m)) ∧
    (check_connectivity attempt = .ok false ↔
      ∃ m, attempt = .error (.serviceUnavailable m)) := by
  rcases attempt with e | u
  · cases e <;> simp [check_connectivity]
  · simp [check_connectivity]

/-- Witness for C5: an unreachable endpoint yields false without raising. -/
theorem check_connectivity_spec_witness :
    check_connectivity (.error (.serviceUnavailable "down")) = .ok false :=
  (check_connectivity_spec (.error (.serviceUnavailable "down"))).2.1 "down" rfl

/-- C2: full_health_check always returns a report (the model is a total
function, so nothing raises out of the call); when the connectivity check
reports failure the report has connected=false, apoc_available=false,
version="unknown" and empty stats; and whenever any step of the sequence
raises, the error message is stored in the report's error field and the
partly filled report is still returned. -/
theorem full_health_check_spec (env : HealthEnv) :
    (check_connectivity env.connectivity = .ok false →
      full_health_check env =
        { connected := false, apoc_available := false, version := "unknown",
          stats := none, error := none }) ∧
    (∀ e, check_connectivity env.connectivity = .error e →
      full_health_check env =
        { connected := false, apoc_available := false, version := "unknown",
          stats := none, error := some e.message }) ∧
    (∀ e, check_connectivity env.connectivity = .ok true →
      get_version env.versionRows = .error e →
      full_health_check env =
        { connected := true, apoc_available := check_apoc_available env.apocRows,
          version := "unknown", stats := none, error := some e.message }) ∧
    (∀ e v, check_connectivity env.connectivity = .ok true →
      get_version env.versionRows = .ok v →
      get_database_stats env.nodeCount env.relCount env.labelsRows = .error e →
      full_health_check env =
        { connected := true, apoc_available := check_apoc_available env.apocRows,
          version := v, stats := none, error := some e.message }) ∧
    (∀ v s, check_connectivity env.connectivity = .ok true →
      get_version env.versionRows = .ok v →
      get_database_stats env.nodeCount env.relCount env.labelsRows = .ok s →
      full_health_check env =
        { connected := true, apoc_available := check_apoc_available env.apocRows,
          version := v, stats := some s, error := none }) := by
  refine ⟨?_, ?_, ?_, ?_, ?_⟩
  · intro h; simp [full_health_check, h]
  · intro e h; simp [full_health_check, h]
  · intro e h1 h2; simp [full_health_check, h1, h2]
  · intro e v h1 h2 h3; simp [full_health_check, h1, h2, h3]
  · intro v s h1 h2 h3; simp [full_health_check, h1, h2, h3]

/-- An environment whose connectivity check fails with ServiceUnavailable. -/
def healthEnvDown : HealthEnv :=
  { connectivity := .error (.serviceUnavailable "down"), apocRows := .ok [],
    versionRows := .ok [], nodeCount := .ok 0, relCount := .ok 0,
    labelsRows := .ok [] }

/-- Witness for C2: on a connectivity failure the defaulted report comes
back (connected=false, apoc_available=false, version unknown, empty
stats). -/
theorem full_health_check_spec_witness :
    full_health_check healthEnvDown =
      { connected := false, apoc_available := false, version := "unknown",
        stats := none, error := none } :=
  (full_health_check_spec healthEnvDown).1 rfl

/-- Auxiliary: when every connectivity check fails, the polling loop runs
to timeout — for any positive interval and enough fuel it returns false
after n further check/sleep rounds, where the total elapsed time first
reaches the timeout. -/
theorem waitAux_const_false (timeout : Int) (interval : Nat) (hI : 0 < interval) :
    ∀ fuel elapsed checks sleeps : Nat, (timeout - elapsed).toNat < fuel →
      ∃ n : Nat,
        waitAux (fun _ => false) timeout interval fuel elapsed checks sleeps =
          some (false, checks + n, sleeps + n) ∧
        timeout ≤ (elapsed : Int) + n * interval ∧
        (0 < n → (elapsed : Int) + ((n : Int) - 1) * interval < timeout) ∧
        (n = 0 → timeout ≤ (elapsed : Int)) := by
  intro fuel
  induction fuel with
  | zero => intro elapsed checks sleeps h; omega
  | succ fuel ih =>
    intro elapsed checks sleeps h
    by_cases hlt : (elapsed : Int) < timeout
    · obtain ⟨n, hw, h1, h2, h3⟩ :=
        ih (elapsed + interval) (checks + 1) (sleeps + 1) (by omega)
      refine ⟨n + 1, ?_, ?_, ?_, ?_⟩
      · have e1 : checks + 1 + n = checks + (n + 1) := by omega
        have e2 : sleeps + 1 + n = sleeps + (n + 1) := by omega
        rw [waitAux]
        simp only [hlt, if_true]
        rw [if_neg (by simp)]
        rw [hw, e1, e2]
      · push_cast at h1 ⊢
        have hr : ((n : Int) + 1) * interval = n * interval + interval := by ring
        linarith
      · intro _
        rcases Nat.eq_zero_or_pos n with h0 | h0
        · subst h0
          push_cast
          have hr : ((0 : Int) + 1 - 1) * (interval : Int) = 0 := by ring
          linarith
        · have h2' := h2 h0
          push_cast at h2' ⊢
          have hr : ((n : Int) + 1 - 1) * (interval : Int) =
              ((n : Int) - 1) * interval + interval := by ring
          linarith
      · intro h0; omega
    · refine ⟨0, ?_, ?_, ?_, ?_⟩
      · simp [waitAux, hlt]
      · push_cast at hlt ⊢; omega
      · intro h0; exact absurd h0 (by omega)
      · intro _; push_cast at hlt ⊢; omega

/-- C3: against a connection that never becomes reachable, wait_for_ready
terminates (the fuel does not run out) and returns false, having performed
one sleep of the constant interval after each failed check; the final
elapsed time n * interval is the first multiple of the interval to reach
the timeout, so it lies in [timeout, timeout + interval). -/
theorem wait_for_ready_never_ready (timeout : Int) (interval : Nat)
    (hT : 0 < timeout) (hI : 0 < interval) :
    ∃ n : Nat, wait_for_ready (fun _ => false) timeout interval =
        some (false, n, n) ∧
      timeout ≤ (n : Int) * interval ∧
      (n : Int) * interval < timeout + interval := by
  obtain ⟨n, hw, h1, h2, h3⟩ :=
    waitAux_const_false timeout interval hI (timeout.toNat + 1) 0 0 0 (by omega)
  have hn : 0 < n := by
    rcases Nat.eq_zero_or_pos n with h0 | h0
    · have := h3 h0; push_cast at this; omega
    · exact h0
  refine ⟨n, ?_, ?_, ?_⟩
  · simpa [wait_for_ready] using hw
  · have := h1; push_cast at this; linarith
  · have h2' := h2 hn
    push_cast at h2'
    have hr : ((n : Int) - 1) * (interval : Int) =
        (n : Int) * interval - interval := by ring
    linarith

/-- Witness for C3: timeout 5, interval 2 — three failed checks, three
sleeps, final elapsed time 6 ∈ [5, 7), result false. -/
theorem wait_for_ready_never_ready_witness :
    ∃ n : Nat, wait_for_ready (fun _ => false) 5 2 = some (false, n, n) ∧
      (5 : Int) ≤ (n : Int) * 2 ∧ (n : Int) * 2 < 5 + 2 :=
  wait_for_ready_never_ready 5 2 (by norm_num) (by norm_num)

/-- C4: if the first connectivity check succeeds, wait_for_ready returns
true after exactly one check and zero sleeps, for every positive timeout
and any interval. -/
theorem wait_for_ready_first_attempt (check : Nat → Bool) (timeout : Int)
    (interval : Nat) (hT : 0 < timeout) (hc : check 0 = true) :
    wait_for_ready check timeout interval = some (true, 1, 0) := by
  have h0 : (0 : Int) < timeout := hT
  simp [wait_for_ready, waitAux, h0, hc]

/-- Witness for C4: an immediately reachable connection, timeout 60,
interval 2 — true with no sleep. -/
theorem wait_for_ready_first_attempt_witness :
    wait_for_ready (fun _ => true) 60 2 = some (true, 1, 0) :=
  wait_for_ready_first_attempt (fun _ => true) 60 2 (by norm_num) rfl

/-- C10: for a timeout at most zero the strict comparison fails at once,
so wait_for_ready returns false with zero connectivity checks and zero
sleeps, whatever the check would have answered. -/
theorem wait_for_ready_nonpos_timeout (check : Nat → Bool) (timeout : Int)
    (interval : Nat) (hT : timeout ≤ 0) :
    wait_for_ready check timeout interval = some (false, 0, 0) := by
  have h0 : ¬ (0 : Int) < timeout := by omega
  simp [wait_for_ready, waitAux, h0]

/-- Witness for C10: timeout 0 against an always-ready connection — false,
no check, no sleep. -/
theorem wait_for_ready_nonpos_timeout_witness :
    wait_for_ready (fun _ => true) 0 3 = some (false, 0, 0) :=
  wait_for_ready_nonpos_timeout (fun _ => true) 0 3 (by norm_num)

/-! ## Theorems: backup/restore helper -/

/-- C6: importing a path that does not exist fails with FileNotFoundError
and issues no database operation at all — no query and no clear_database —
whatever the clear flag says. -/
theorem import_missing_file (fs : List Char → Bool)
    (exec : List Char → Except (List Char) (List ImportRow))
    (filepath : List Char) (clear_database : Bool)
    (h : fs filepath = false) :
    import_from_graphml fs exec filepath clear_database =
      (.error (.fileNotFound ("Backup file not found: ".toList ++ filepath)),
       []) := by
  simp [import_from_graphml, h]

/-- Witness for C6: a missing path with the clear flag set still issues
nothing. -/
theorem import_missing_file_witness :
    import_from_graphml (fun _ => false) (fun _ => .ok [])
      "missing.graphml".toList true =
      (.error (.fileNotFound
        ("Backup file not found: ".toList ++ "missing.graphml".toList)), []) :=
  import_missing_file (fun _ => false) (fun _ => .ok [])
    "missing.graphml".toList true rfl

/-- C9: for two existing filepaths with the same basename, the whole of
the import run is identical — same query text sent to the database, same
operation trace, same returned stats; the directory component never
influences the outcome. -/
theorem import_basename_only (fs : List Char → Bool)
    (exec : List Char → Except (List Char) (List ImportRow))
    (p1 p2 : List Char) (clear_database : Bool)
    (h1 : fs p1 = true) (h2 : fs p2 = true)
    (hb : basename p1 = basename p2) :
    import_from_graphml fs exec p1 clear_database =
      import_from_graphml fs exec p2 clear_database := by
  simp [import_from_graphml, h1, h2, hb]

/-- Witness for C9: two paths in different directories with the same
basename give identical runs. -/
theorem import_basename_only_witness :
    import_from_graphml (fun _ => true) (fun _ => .ok [])
      "a/f.graphml".toList false =
      import_from_graphml (fun _ => true) (fun _ => .ok [])
        "b/c/f.graphml".toList false :=
  import_basename_only (fun _ => true) (fun _ => .ok [])
    "a/f.graphml".toList "b/c/f.graphml".toList false rfl rfl (by decide)

/-- Auxiliary: the scan leaves a list without any occurrence of the
pattern unchanged. -/
theorem pyRemoveAux_nil (pat : List Char) (fuel : Nat) :
    pyRemoveAux pat fuel [] = [] := by
  cases fuel <;> rfl

/-- Auxiliary: if the pattern is not an infix of the list, the scan
removes nothing. -/
theorem pyRemoveAux_not_infix (pat : List Char) :
    ∀ (l : List Char) (fuel : Nat), l.length ≤ fuel → ¬ pat <:+: l →
      pyRemoveAux pat fuel l = l := by
  intro l
  induction l with
  | nil => intro fuel _ _; exact pyRemoveAux_nil pat fuel
  | cons c rest ih =>
    intro fuel hfuel hinf
    obtain ⟨f, rfl⟩ : ∃ f, fuel = f + 1 := by
      cases fuel with
      | zero => exfalso; simp at hfuel
      | succ f => exact ⟨f, rfl⟩
    have hcond : ¬ (pat ≠ [] ∧ pat.isPrefixOf (c :: rest) = true) := by
      rintro ⟨hne, hpre⟩
      exact hinf (List.isPrefixOf_iff_prefix.mp hpre).isInfix
    simp only [pyRemoveAux]
    rw [if_neg hcond]
    have hrest : pyRemoveAux pat f rest = rest :=
      ih f (by simp at hfuel; omega) (fun h => hinf (List.infix_cons h))
    rw [hrest]

/-- Auxiliary: a pattern with pairwise distinct characters cannot start
inside the stripped part of `l ++ pat` and end inside the final copy, so
when it is not an infix of `l` the scan removes exactly the final copy. -/
theorem pyRemoveAux_append_self (pat : List Char) (hne : pat ≠ [])
    (hnodup : pat.Nodup) :
    ∀ (l : List Char) (fuel : Nat), l.length + pat.length ≤ fuel →
      ¬ pat <:+: l → pyRemoveAux pat fuel (l ++ pat) = l := by
  intro l
  induction l with
  | nil =>
    intro fuel hfuel _
    obtain ⟨p, ps, rfl⟩ : ∃ p ps, pat = p :: ps := by
      cases pat with
      | nil => exact absurd rfl hne
      | cons p ps => exact ⟨p, ps, rfl⟩
    obtain ⟨f, rfl⟩ : ∃ f, fuel = f + 1 := by
      cases fuel with
      | zero => exfalso; simp at hfuel
      | succ f => exact ⟨f, rfl⟩
    have hpre : (p :: ps).isPrefixOf (p :: ps) = true :=
      List.isPrefixOf_iff_prefix.mpr (List.prefix_refl _)
    simp only [List.nil_append, pyRemoveAux]
    rw [if_pos ⟨by simp, hpre⟩]
    have hd : ps.drop ((p :: ps).length - 1) = [] := by
      simp [List.drop_length]
    rw [hd]
    exact pyRemoveAux_nil _ _
  | cons c rest ih =>
    intro fuel hfuel hinf
    obtain ⟨f, rfl⟩ : ∃ f, fuel = f + 1 := by
      cases fuel with
      | zero => exfalso; simp at hfuel
      | succ f => exact ⟨f, rfl⟩
    have hnopre : ¬ pat <+: (c :: rest) ++ pat := by
      intro hpre
      have h1 : pat = ((c :: rest) ++ pat).take pat.length :=
        List.prefix_iff_eq_take.mp hpre
      rw [List.take_append_eq_append_take] at h1
      by_cases hlen : pat.length ≤ (c :: rest).length
      · rw [Nat.sub_eq_zero_of_le hlen, List.take_zero, List.append_nil] at h1
        have hp : pat <+: (c :: rest) := h1 ▸ List.take_prefix _ _
        exact hinf hp.isInfix
      · push_neg at hlen
        rw [List.take_of_length_le (le_of_lt hlen)] at h1
        obtain ⟨p, ps, hpat⟩ : ∃ p ps, pat = p :: ps := by
          cases pat with
          | nil => exact absurd rfl hne
          | cons p ps => exact ⟨p, ps, rfl⟩
        have hpc : p = c := by
          have h1' := h1
          rw [hpat, List.cons_append] at h1'
          exact (List.cons.injEq _ _ _ _ ▸ h1').1
        have hpu : p ∈ pat.take (pat.length - (c :: rest).length) := by
          obtain ⟨k, hk⟩ : ∃ k, pat.length - (c :: rest).length = k + 1 :=
            ⟨pat.length - (c :: rest).length - 1, by omega⟩
          rw [hk, hpat, List.take_succ_cons]
          exact List.mem_cons_self _ _
        have hpL : p ∈ c :: rest := by
          rw [hpc]; exact List.mem_cons_self _ _
        have hnd : ((c :: rest) ++ pat.take (pat.length - (c :: rest).length)).Nodup := by
          rw [← h1]; exact hnodup
        have hdisj := (List.nodup_append.mp hnd).2.2
        exact hdisj hpL hpu
    have hcond : ¬ (pat ≠ [] ∧ pat.isPrefixOf (c :: (rest ++ pat)) = true) := by
      rintro ⟨_, hpre⟩
      exact hnopre (by simpa using List.isPrefixOf_iff_prefix.mp hpre)
    rw [List.cons_append]
    simp only [pyRemoveAux]
    rw [if_neg hcond]
    have hrest : pyRemoveAux pat f (rest ++ pat) = rest :=
      ih f (by simp at hfuel ⊢; omega) (fun h => hinf (List.infix_cons h))
    rw [hrest]

/-- If the pattern does not occur in the string, replace removes nothing. -/
theorem pyRemove_not_infix (pat l : List Char) (h : ¬ pat <:+: l) :
    pyRemove pat l = l :=
  pyRemoveAux_not_infix pat l l.length le_rfl h

/-- For a pattern with pairwise distinct characters occurring only as the
final suffix, replace removes exactly that suffix. -/
theorem pyRemove_append_self (pat : List Char) (hne : pat ≠ [])
    (hnodup : pat.Nodup) (l : List Char) (h : ¬ pat <:+: l) :
    pyRemove pat (l ++ pat) = l := by
  unfold pyRemove
  exact pyRemoveAux_append_self pat hne hnodup l (l ++ pat).length (by simp) h

/-- C7 (counterexample): the replace call removes the substring ".graphml"
anywhere in the filename, not only a trailing extension: for the filename
"a.graphmlb" — which has no trailing ".graphml" extension, so per the
claim it should pass through unchanged and receive one appended
extension, giving "a.graphmlb.graphml" — the embedded filename actually
built is "ab.graphml". -/
theorem export_strip_counterexample :
    exportEmbeddedName "a.graphmlb".toList = "ab.graphml".toList ∧
    exportEmbeddedName "a.graphmlb".toList ≠
      "a.graphmlb".toList ++ graphmlExt := by
  decide

/-- C7 (amended): export removes every occurrence of the substring
".graphml" from the filename before appending the extension; for every
filename in which ".graphml" occurs at most as a trailing extension, the
claim's property holds — the embedded filename and the returned output
path carry exactly one trailing ".graphml" and the rest of the filename is
unchanged, and a filename with and without the trailing extension yield
the same export query. -/
theorem export_strip_spec (backupDir l : List Char) (include_types : Bool)
    (h : ¬ graphmlExt <:+: l) :
    exportEmbeddedName (l ++ graphmlExt) = l ++ graphmlExt ∧
    exportEmbeddedName l = l ++ graphmlExt ∧
    exportOutputPath backupDir (l ++ graphmlExt) =
      backupDir ++ [ '/' ] ++ l ++ graphmlExt ∧
    exportQuery (l ++ graphmlExt) include_types = exportQuery l include_types := by
  have h1 : stripGraphml (l ++ graphmlExt) = l :=
    pyRemove_append_self graphmlExt (by decide) (by decide) l h
  have h2 : stripGraphml l = l := pyRemove_not_infix graphmlExt l h
  refine ⟨?_, ?_, ?_, ?_⟩
  · rw [exportEmbeddedName, h1]
  · rw [exportEmbeddedName, h2]
  · simp [exportOutputPath, exportEmbeddedName, h1, List.append_assoc]
  · rw [exportQuery, exportQuery, exportEmbeddedName, exportEmbeddedName, h1, h2]

/-- Witness for C7: a plain timestamped base name, with or without the
extension, yields that base plus exactly one ".graphml" everywhere. -/
theorem export_strip_spec_witness :
    exportEmbeddedName ("neo4j_backup_1".toList ++ graphmlExt) =
      "neo4j_backup_1".toList ++ graphmlExt ∧
    exportEmbeddedName "neo4j_backup_1".toList =
      "neo4j_backup_1".toList ++ graphmlExt ∧
    exportOutputPath "./backup".toList ("neo4j_backup_1".toList ++ graphmlExt) =
      "./backup".toList ++ [ '/' ] ++ "neo4j_backup_1".toList ++ graphmlExt ∧
    exportQuery ("neo4j_backup_1".toList ++ graphmlExt) true =
      exportQuery "neo4j_backup_1".toList true :=
  export_strip_spec "./backup".toList "neo4j_backup_1".toList true (by decide)

end Neo4jManager
